import Mathlib

/-!
Verification of the directorytomarkdown repository.

The repository contains two near-duplicate scripts,
`src/directorytomarkdown.py` (modelled here with the `dtm_` name prefix on
each definition) and `src/tollm.py` (modelled with the `tollm_` name prefix).
Both walk a directory tree, filter files by name/extension sets, read file
contents with an encoding-fallback chain, and emit one Markdown section per
included file.

Modelling conventions (shallow embedding):
* Configuration sets are the literal Python sets, embedded as `List String`
  with membership via `List.contains` (Python `in`).
* Filenames and text are `String`; Python `str.lower()` is `lowerStr`
  (`Char.toLower` on every character, which agrees on the ASCII data the
  program compares).
* File bytes are `List Nat`; decoding a byte sequence with a named codec is
  an oracle `decode : String → List Nat → Option String` (`none` models
  `UnicodeDecodeError`), and the `chardet` statistical detector is an oracle
  `List Nat → DetectResult` returning an optional codec name and a rational
  confidence.  I/O failure when opening/reading a file is modelled by giving
  the reader `none` instead of `some bytes`.
* A directory tree is the inductive `FsEntry`; `os.walk(top, topdown=True,
  followlinks=False)` visits the root's children, yields each directory
  before its subdirectories in child-list order, keeps symlinks out of the
  descent, and lets the caller prune the pending directory list — all of
  which the recursive walk functions below reproduce.
* The per-file output fragments of `process_directory` are concatenated by
  `dtm_renderSection` / `tollm_renderSection`; relative paths are kept as
  component lists and joined with "/" (on POSIX `os.sep` is "/" and the
  scripts replace `os.sep` by "/" for display).
-/

/-- The set `INCLUDED_EXTENSIONS`, identical in both scripts. -/
def INCLUDED_EXTENSIONS : List String :=
  [".py", ".js", ".jsx", ".ts", ".tsx", ".html", ".htm", ".css", ".scss",
   ".java", ".kt", ".swift", ".c", ".cpp", ".h", ".hpp", ".cs", ".go",
   ".php", ".rb", ".pl", ".sh", ".bat", ".ps1",
   ".json", ".yaml", ".yml", ".xml", ".toml", ".ini", ".cfg",
   ".md", ".txt", ".rst", ".tex",
   ".sql", ".dockerfile", "Dockerfile", ".env", ".gitignore", ".gitattributes"]

/-- The set `EXCLUDED_DIRECTORIES`, identical in both scripts. -/
def EXCLUDED_DIRECTORIES : List String :=
  [".git", "node_modules", "venv", ".venv", "env", ".env",
   "__pycache__", "dist", "build", "target", "out",
   ".vscode", ".idea", ".project", ".settings",
   "vendor", "Pods", "Carthage"]

/-- The set `EXCLUDED_FILES_OR_EXTENSIONS`, identical in both scripts. -/
def EXCLUDED_FILES_OR_EXTENSIONS : List String :=
  [".log", ".tmp", ".temp", ".swp", ".bak", ".old",
   ".DS_Store", "Thumbs.db",
   ".lock", "package-lock.json", "yarn.lock", "composer.lock", "Pipfile.lock",
   ".png", ".jpg", ".jpeg", ".gif", ".bmp", ".ico", ".svg",
   ".pdf", ".doc", ".docx", ".xls", ".xlsx", ".ppt", ".pptx",
   ".zip", ".tar", ".gz", ".rar", ".7z",
   ".exe", ".dll", ".so", ".dylib", ".jar", ".class", ".pyc", ".o",
   ".mp3", ".wav", ".mp4", ".mov", ".avi"]

/-- The mapping `LANGUAGE_MAP`, identical in both scripts. -/
def LANGUAGE_MAP : List (String × String) :=
  [(".py", "python"), (".js", "javascript"), (".jsx", "jsx"),
   (".ts", "typescript"), (".tsx", "tsx"), (".html", "html"), (".htm", "html"),
   (".css", "css"), (".scss", "scss"), (".java", "java"), (".kt", "kotlin"),
   (".swift", "swift"), (".c", "c"), (".cpp", "cpp"), (".h", "c"),
   (".hpp", "cpp"), (".cs", "csharp"), (".go", "go"), (".php", "php"),
   (".rb", "ruby"), (".pl", "perl"), (".sh", "bash"), (".bat", "batch"),
   (".ps1", "powershell"), (".json", "json"), (".yaml", "yaml"),
   (".yml", "yaml"), (".xml", "xml"), (".toml", "toml"), (".ini", "ini"),
   (".cfg", "ini"), (".md", "markdown"), (".txt", "text"), (".rst", "rst"),
   (".tex", "latex"), (".sql", "sql"), (".dockerfile", "dockerfile"),
   ("Dockerfile", "dockerfile"), (".env", "text"), (".gitignore", "text"),
   (".gitattributes", "text")]

/-- Model of Python `str.lower()`: lower-case every character.  (Python and
`Char.toLower` agree on ASCII, which is all the configuration compares.) -/
def lowerStr (s : String) : String := String.mk (s.data.map Char.toLower)

/-- Model of Python `os.path.splitext` restricted to bare filenames (no
directory separators, which is how both scripts call it): the extension
starts at the last dot, except that leading dots of the name never start an
extension (`splitext ".gitignore" = (".gitignore", "")`). -/
def splitext (s : String) : String × String :=
  let r := s.data.reverse
  match r.findIdx? (· == '.') with
  | none => (s, "")
  | some k =>
      let base := (r.drop (k + 1)).reverse
      if base.any (· != '.') then (String.mk base, String.mk ((r.take (k + 1)).reverse))
      else (s, "")

/-- The `extension_lower` both scripts compute:
`os.path.splitext(filename)[1].lower()`. -/
def extLower (filename : String) : String := lowerStr (splitext filename).2

/-- directorytomarkdown.py lines 225-226: a file is excluded when its literal
filename, or its nonempty lower-cased extension, is in
`EXCLUDED_FILES_OR_EXTENSIONS`. -/
def dtm_fileExcluded (filename : String) : Bool :=
  EXCLUDED_FILES_OR_EXTENSIONS.contains filename ||
    (!(extLower filename == "") && EXCLUDED_FILES_OR_EXTENSIONS.contains (extLower filename))

/-- directorytomarkdown.py line 231: `is_includable_name`. -/
def dtm_isIncludableName (filename : String) : Bool :=
  INCLUDED_EXTENSIONS.contains filename

/-- directorytomarkdown.py line 233: `is_includable_ext`. -/
def dtm_isIncludableExt (filename : String) : Bool :=
  INCLUDED_EXTENSIONS.contains (extLower filename)

/-- directorytomarkdown.py line 236: the inclusion test. -/
def dtm_fileIncludable (filename : String) : Bool :=
  dtm_isIncludableExt filename || dtm_isIncludableName filename

/-- The complete per-file filter of directorytomarkdown.py (lines 225-238):
not excluded, and includable by name or extension; the exclusion test runs
first. -/
def dtm_filterInclude (filename : String) : Bool :=
  !dtm_fileExcluded filename && dtm_fileIncludable filename

/-- tollm.py line 164: the exclusion test (no emptiness guard on the
extension). -/
def tollm_fileExcluded (filename : String) : Bool :=
  EXCLUDED_FILES_OR_EXTENSIONS.contains filename ||
    EXCLUDED_FILES_OR_EXTENSIONS.contains (extLower filename)

/-- The complete per-file filter of tollm.py (lines 164-175). -/
def tollm_filterInclude (filename : String) : Bool :=
  !tollm_fileExcluded filename &&
    (INCLUDED_EXTENSIONS.contains (extLower filename) || INCLUDED_EXTENSIONS.contains filename)

/-- directorytomarkdown.py line 249: `lang_key = filename if is_includable_name
else extension_lower`. -/
def dtm_langKey (filename : String) : String :=
  if dtm_isIncludableName filename then filename else extLower filename

/-- directorytomarkdown.py line 250: `LANGUAGE_MAP.get(lang_key, '')`. -/
def dtm_language (filename : String) : String :=
  (LANGUAGE_MAP.lookup (dtm_langKey filename)).getD ""

/-- tollm.py line 183: `lang_key = extension.lower() if is_includable_ext else
filename`. -/
def tollm_langKey (filename : String) : String :=
  if INCLUDED_EXTENSIONS.contains (extLower filename) then extLower filename else filename

/-- tollm.py line 184: `LANGUAGE_MAP.get(lang_key, '')`. -/
def tollm_language (filename : String) : String :=
  (LANGUAGE_MAP.lookup (tollm_langKey filename)).getD ""

/-- Result of the chardet statistical detector: an optional codec name plus
a confidence value. -/
structure DetectResult where
  encoding : Option String
  confidence : ℚ

/-- One decode attempt per codec name in order, stopping at the first
success: the loop over `encodings_to_try` in directorytomarkdown.py's
`get_file_content` (lines 127-134). -/
def firstDecode (decode : String → List Nat → Option String) (bytes : List Nat) :
    List String → Option String
  | [] => none
  | e :: rest =>
      match decode e bytes with
      | some c => some c
      | none => firstDecode decode bytes rest

/-- directorytomarkdown.py `detect_encoding` (lines 96-114): with chardet
available, sample the first 5000 bytes; an empty sample, a missing or empty
detected name, or a confidence not above 0.7 all fall back to "utf-8". -/
def dtm_detect_encoding (avail : Bool) (detect : List Nat → DetectResult)
    (bytes : List Nat) : String :=
  if avail = false then "utf-8"
  else
    let raw := bytes.take 5000
    if raw = [] then "utf-8"
    else
      let r := detect raw
      match r.encoding with
      | none => "utf-8"
      | some e => if e ≠ "" ∧ r.confidence > 7 / 10 then e else "utf-8"

/-- directorytomarkdown.py `get_file_content` (lines 118-124): the encoding
list — "utf-8", then the detected encoding when not already present, then
"latin-1" when not already present. -/
def dtm_encodingsToTry (avail : Bool) (detect : List Nat → DetectResult)
    (bytes : List Nat) : List String :=
  let l1 := ["utf-8"]
  let det := dtm_detect_encoding avail detect bytes
  let l2 := if l1.contains det then l1 else l1 ++ [det]
  if l2.contains "latin-1" then l2 else l2 ++ ["latin-1"]

/-- directorytomarkdown.py `get_file_content` (lines 116-144).  A `none`
input models an I/O error when opening or reading the file (the
IOError/OSError handlers return None); otherwise each encoding of
`encodings_to_try` is attempted in order and the first successful decode is
returned, or None after exhausting the list. -/
def dtm_get_file_content (avail : Bool) (decode : String → List Nat → Option String)
    (detect : List Nat → DetectResult) (file : Option (List Nat)) : Option String :=
  match file with
  | none => none
  | some bytes => firstDecode decode bytes (dtm_encodingsToTry avail detect bytes)

/-- tollm.py `detect_encoding` (lines 90-100): no confidence threshold; a
missing or empty detected name falls back to "utf-8". -/
def tollm_detect_encoding (detect : List Nat → DetectResult) (bytes : List Nat) : String :=
  let r := detect (bytes.take 5000)
  match r.encoding with
  | none => "utf-8"
  | some e => if e = "" then "utf-8" else e

/-- tollm.py `get_file_content` (lines 102-130): UTF-8 first; on decode
failure the detected encoding, with no confidence test; on failure again,
latin-1, whose outcome is final.  A `none` input models an I/O error. -/
def tollm_get_file_content (decode : String → List Nat → Option String)
    (detect : List Nat → DetectResult) (file : Option (List Nat)) : Option String :=
  match file with
  | none => none
  | some bytes =>
      match decode "utf-8" bytes with
      | some c => some c
      | none =>
          match decode (tollm_detect_encoding detect bytes) bytes with
          | some c => some c
          | none => decode "latin-1" bytes

/-- Modelled from the spec (§4.3) and claim C3's wording, for comparison with
the code: attempt strict UTF-8; then the encoding statistically detected
from the first 5000 bytes, accepted only when its reported confidence
exceeds 0.7 and replaced by UTF-8 otherwise; then Latin-1. -/
def readerChainSpec (decode : String → List Nat → Option String)
    (detect : List Nat → DetectResult) (bytes : List Nat) : Option String :=
  match decode "utf-8" bytes with
  | some c => some c
  | none =>
      let r := detect (bytes.take 5000)
      let enc :=
        match r.encoding with
        | some e => if r.confidence > 7 / 10 then e else "utf-8"
        | none => "utf-8"
      match decode enc bytes with
      | some c => some c
      | none => decode "latin-1" bytes

/-- Concrete decode oracle for witnesses: only latin-1 succeeds. -/
def wDecode : String → List Nat → Option String :=
  fun e _ => if e = "latin-1" then some "latin text" else none

/-- Concrete detector oracle for witnesses: never reports an encoding. -/
def wDetect : List Nat → DetectResult := fun _ => ⟨none, 0⟩

/-- Concrete decode oracle for the C3 counterexample: cp1252 and latin-1
succeed with different texts, utf-8 fails. -/
def cDecode : String → List Nat → Option String :=
  fun e _ =>
    if e = "cp1252" then some "windows text"
    else if e = "latin-1" then some "latin text"
    else none

/-- Concrete detector oracle for the C3 counterexample: reports cp1252 with
confidence 0.1, far below the 0.7 threshold. -/
def cDetect : List Nat → DetectResult := fun _ => ⟨some "cp1252", 1 / 10⟩

/-- Model of Python `content.endswith('\n')`: the last character is a
newline (false on empty content). -/
def endsWithNewline (s : String) : Bool :=
  match s.data.getLast? with
  | some c => c == '\n'
  | none => false

/-- One emitted file section before rendering: the path relative to the
scanned root (as components, joined with "/" for display — on POSIX
`os.sep` is "/" and both scripts replace `os.sep` by "/"), the language
tag, and the decoded content. -/
structure FileSection where
  path : List String
  lang : String
  content : String
deriving DecidableEq

/-- directorytomarkdown.py lines 252-260: the Markdown fragments appended
for one file, concatenated — header line, opening fence with language tag,
content, a forced newline when the content is nonempty (Python truthiness)
and does not end in one, closing fence and blank line. -/
def dtm_renderSection (s : FileSection) : String :=
  "--- File: " ++ String.intercalate "/" s.path ++ " ---\n" ++
    ("```" ++ s.lang ++ "\n") ++ s.content ++
    (if !(s.content == "") && !endsWithNewline s.content then "\n" else "") ++ "```\n\n"

/-- tollm.py lines 186-193: the same fragments, but the forced newline is
added whenever the content does not end in one, including empty content. -/
def tollm_renderSection (s : FileSection) : String :=
  "--- File: " ++ String.intercalate "/" s.path ++ " ---\n" ++
    ("```" ++ s.lang ++ "\n") ++ s.content ++
    (if !endsWithNewline s.content then "\n" else "") ++ "```\n\n"

/-- A directory-tree entry as the walker sees it.  The `content` of a file
entry is the result `get_file_content` would produce for it (`none` models
the per-file read failure that makes the scripts skip the file); for a
symlink file it is the readable content behind the link. -/
inductive FsEntry where
  | file (name : String) (isLink : Bool) (content : Option String)
  | dir (name : String) (isLink : Bool) (children : List FsEntry)

/-- The entry's name. -/
def FsEntry.name : FsEntry → String
  | .file n _ _ => n
  | .dir n _ _ => n

/-- Whether the entry appears in the `dirs` list of `os.walk` (symlinked
directories included) rather than in `files`. -/
def FsEntry.isDirE : FsEntry → Bool
  | .file _ _ _ => false
  | .dir _ _ _ => true

/-- directorytomarkdown.py lines 202-260, one iteration of the per-file
loop: skip symlinks (line 211), skip excluded names/extensions, skip
non-included ones, skip files whose read returned None; otherwise emit a
section with the relative path, the language tag and the content. -/
def dtm_processFile (relDir : List String) : FsEntry → Option FileSection
  | .file n lnk c =>
      if lnk then none
      else if dtm_fileExcluded n then none
      else if !dtm_fileIncludable n then none
      else c.map fun content => ⟨relDir ++ [n], dtm_language n, content⟩
  | .dir _ _ _ => none

/-- tollm.py lines 157-193, one iteration of the per-file loop: no symlink
check — a symlinked file is read like any other. -/
def tollm_processFile (relDir : List String) : FsEntry → Option FileSection
  | .file n _ c =>
      if tollm_fileExcluded n then none
      else if !(INCLUDED_EXTENSIONS.contains (extLower n) ||
          INCLUDED_EXTENSIONS.contains n) then none
      else c.map fun content => ⟨relDir ++ [n], tollm_language n, content⟩
  | .dir _ _ _ => none

/-- Insertion into a name-sorted list of entries. -/
def insertFile (e : FsEntry) : List FsEntry → List FsEntry
  | [] => [e]
  | x :: xs => if e.name ≤ x.name then e :: x :: xs else x :: insertFile e xs

/-- directorytomarkdown.py line 200, `files.sort()`: sort the directory's
file entries by name (filenames within one directory are distinct, so any
comparison sort agrees with Python's). -/
def sortFiles : List FsEntry → List FsEntry
  | [] => []
  | x :: xs => insertFile x (sortFiles xs)

/-- The sections the per-file loop of directorytomarkdown.py emits for one
visited directory: its non-directory entries, sorted, then filtered and
read. -/
def dtm_filesPart (relDir : List String) (children : List FsEntry) : List FileSection :=
  (sortFiles (children.filter (fun e => !e.isDirE))).filterMap (dtm_processFile relDir)

/-- The sections tollm.py emits for one visited directory: no sort. -/
def tollm_filesPart (relDir : List String) (children : List FsEntry) : List FileSection :=
  (children.filter (fun e => !e.isDirE)).filterMap (tollm_processFile relDir)

/-- Model of Python `d.startswith('.')`: the first character is a dot
(false on the empty name). -/
def startsWithDot (s : String) : Bool :=
  match s.data with
  | c :: _ => c == '.'
  | [] => false

/-- The descent of `os.walk(..., topdown=True, followlinks=False)` as driven
by directorytomarkdown.py line 191: child directories whose name is in
`EXCLUDED_DIRECTORIES` or starts with "." are pruned before descent;
symlinked directories stay listed but are never walked into
(`followlinks=False`); every visited directory contributes its file
sections, then its subdirectories' sections, in child-list order. -/
def dtm_walkSubdirs (relDir : List String) : List FsEntry → List FileSection
  | [] => []
  | FsEntry.dir n false cs :: rest =>
      (if !EXCLUDED_DIRECTORIES.contains n && !startsWithDot n then
        dtm_filesPart (relDir ++ [n]) cs ++ dtm_walkSubdirs (relDir ++ [n]) cs
      else []) ++ dtm_walkSubdirs relDir rest
  | _ :: rest => dtm_walkSubdirs relDir rest

/-- The same descent as driven by tollm.py line 149: only names in
`EXCLUDED_DIRECTORIES` are pruned — hidden directories are visited. -/
def tollm_walkSubdirs (relDir : List String) : List FsEntry → List FileSection
  | [] => []
  | FsEntry.dir n false cs :: rest =>
      (if !EXCLUDED_DIRECTORIES.contains n then
        tollm_filesPart (relDir ++ [n]) cs ++ tollm_walkSubdirs (relDir ++ [n]) cs
      else []) ++ tollm_walkSubdirs relDir rest
  | _ :: rest => tollm_walkSubdirs relDir rest

/-- All sections of a directorytomarkdown.py run over an existing root
directory with the given children: the root's own files first (`os.walk`
always yields the root itself), then the subtrees. -/
def dtm_run (children : List FsEntry) : List FileSection :=
  dtm_filesPart [] children ++ dtm_walkSubdirs [] children

/-- All sections of a tollm.py run over an existing root directory. -/
def tollm_run (children : List FsEntry) : List FileSection :=
  tollm_filesPart [] children ++ tollm_walkSubdirs [] children

/-- The fatal error of both scripts' `process_directory`. -/
inductive RunError where
  | notFound
deriving DecidableEq

/-- directorytomarkdown.py `process_directory` (lines 168-288).  A `none`
input models an input path that is missing or not a directory
(`os.path.isdir` false): the script prints the error and returns before any
traversal, never opening or writing the output file — modelled as
`Except.error`.  Otherwise the header and every rendered section are
concatenated and written in a single final write. -/
def dtm_processDirectory (hdr : String) :
    Option (List FsEntry) → Except RunError String
  | none => .error .notFound
  | some children =>
      .ok (hdr ++ String.join ((dtm_run children).map dtm_renderSection))

/-- tollm.py `process_directory` (lines 133-211): the same, with no header
block. -/
def tollm_processDirectory : Option (List FsEntry) → Except RunError String
  | none => .error .notFound
  | some children => .ok (String.join ((tollm_run children).map tollm_renderSection))

/-- Modelled from the spec (§4.4) and claim C7's wording, for comparison
with the code: the language tag found by looking up the file's literal name
first, falling back to its lower-cased extension, falling back to the empty
tag if neither is mapped. -/
def spec_language (filename : String) : String :=
  match LANGUAGE_MAP.lookup filename with
  | some l => l
  | none =>
      match LANGUAGE_MAP.lookup (extLower filename) with
      | some l => l
      | none => ""

/-- Modelled from claim C7's wording, for the counterexample: the claimed
section shape, with a blank line between the header line and the opening
fence. -/
def c7_claimedSection (s : FileSection) : String :=
  "--- File: " ++ String.intercalate "/" s.path ++ " ---\n\n" ++
    ("```" ++ s.lang ++ "\n") ++ s.content ++
    (if !endsWithNewline s.content then "\n" else "") ++ "```\n\n"

/-- Concrete tree for the C2 counterexample: a hidden directory (not in
`EXCLUDED_DIRECTORIES`) holding an includable file. -/
def c2tree : List FsEntry :=
  [FsEntry.dir ".hidden" false [FsEntry.file "a.py" false (some "x\n")]]

/-- Concrete tree for the C2 witness: an ordinary subdirectory holding an
includable file. -/
def c2wtree : List FsEntry :=
  [FsEntry.dir "src" false [FsEntry.file "a.py" false (some "x\n")]]

/-- Concrete tree for the C9 counterexample: a single symlinked file whose
target is an includable Python file. -/
def c9tree : List FsEntry := [FsEntry.file "a.py" true (some "S\n")]

/-- Helper: restate membership as `List.contains`. -/
theorem mem_iff_contains (a : String) (l : List String) : a ∈ l ↔ l.contains a = true :=
  List.elem_iff.symm

/-- Helper: the boolean shape of directorytomarkdown.py's filter, with the
empty-extension guard discharged by the side condition. -/
theorem dtm_filter_bool_helper (A B C D E : Bool) (hE : E = true → B = false) :
    (!(A || (!E && B)) && (D || C)) = true ↔
      ((C = true ∨ D = true) ∧ ¬ (A = true ∨ B = true)) := by
  cases A <;> cases B <;> cases C <;> cases D <;> cases E <;> simp_all

/-- Helper: the boolean shape of tollm.py's filter. -/
theorem tollm_filter_bool_helper (A B C D : Bool) :
    (!(A || B) && (D || C)) = true ↔
      ((C = true ∨ D = true) ∧ ¬ (A = true ∨ B = true)) := by
  cases A <;> cases B <;> cases C <;> cases D <;> simp

/-- C1: for every filename f with lower-cased extension e, both scripts'
filters return Include iff (f or e is in `INCLUDED_EXTENSIONS`) and neither f
nor e is in `EXCLUDED_FILES_OR_EXTENSIONS`; the exclusion test runs first, so
exclusion dominates whenever both sets match. -/
theorem c1_filter_include_iff (f : String) :
    (dtm_filterInclude f = true ↔
      ((f ∈ INCLUDED_EXTENSIONS ∨ extLower f ∈ INCLUDED_EXTENSIONS) ∧
        ¬ (f ∈ EXCLUDED_FILES_OR_EXTENSIONS ∨ extLower f ∈ EXCLUDED_FILES_OR_EXTENSIONS))) ∧
    (tollm_filterInclude f = true ↔
      ((f ∈ INCLUDED_EXTENSIONS ∨ extLower f ∈ INCLUDED_EXTENSIONS) ∧
        ¬ (f ∈ EXCLUDED_FILES_OR_EXTENSIONS ∨ extLower f ∈ EXCLUDED_FILES_OR_EXTENSIONS))) := by
  constructor
  · simp only [dtm_filterInclude, dtm_fileExcluded, dtm_fileIncludable, dtm_isIncludableExt,
      dtm_isIncludableName, mem_iff_contains]
    refine dtm_filter_bool_helper _ _ _ _ _ (fun h => ?_)
    rw [show extLower f = "" from by simpa using h]
    decide
  · simp only [tollm_filterInclude, tollm_fileExcluded, mem_iff_contains]
    exact tollm_filter_bool_helper _ _ _ _

/-- Helper: the encoding list of directorytomarkdown.py always starts with
"utf-8" and always contains "latin-1". -/
theorem dtm_encodingsToTry_cases (avail : Bool) (detect : List Nat → DetectResult)
    (bytes : List Nat) :
    dtm_encodingsToTry avail detect bytes = ["utf-8", "latin-1"] ∨
    dtm_encodingsToTry avail detect bytes =
      ["utf-8", dtm_detect_encoding avail detect bytes, "latin-1"] := by
  set det := dtm_detect_encoding avail detect bytes with hdet
  by_cases h1 : det = "utf-8"
  · left
    simp [dtm_encodingsToTry, ← hdet, h1]
  · by_cases h2 : det = "latin-1"
    · left
      simp [dtm_encodingsToTry, ← hdet, h1, h2]
    · right
      have h2s : ¬ ("latin-1" = det) := fun hh => h2 hh.symm
      simp [dtm_encodingsToTry, ← hdet, h1, h2, h2s]

/-- Helper: if some member of the encoding list decodes, the loop result is
a success. -/
theorem firstDecode_isSome_of_mem (decode : String → List Nat → Option String)
    (bytes : List Nat) (l : List String) (e : String) (he : e ∈ l)
    (hd : (decode e bytes).isSome) : (firstDecode decode bytes l).isSome := by
  induction l with
  | nil => cases he
  | cons a t ih =>
      cases hda : decode a bytes with
      | some c => simp [firstDecode, hda]
      | none =>
          rcases List.mem_cons.mp he with rfl | ht
          · rw [hda] at hd
            cases hd
          · simpa [firstDecode, hda] using ih ht

/-- Helper: matching an option against its own constructors is the
identity. -/
theorem option_match_self (o : Option String) :
    (match o with | some c => some c | none => none) = o := by
  cases o <;> rfl

/-- C3 (amended): directorytomarkdown.py's Reader is extensionally the
chain the claim states — strict UTF-8, then the encoding detected from the
first 5000 bytes accepted only above confidence 0.7 (UTF-8 otherwise), then
Latin-1, stopping at the first success — assuming the detector behaves like
chardet (reported names are nonempty, an empty sample reports no encoding);
in particular a byte sequence that decodes as strict UTF-8 is returned by
the first attempt.  (tollm.py's Reader violates the chain: see the
counterexample.) -/
theorem c3_dtm_reader_follows_spec_chain
    (decode : String → List Nat → Option String) (detect : List Nat → DetectResult)
    (bytes : List Nat)
    (hname : ∀ e, (detect (bytes.take 5000)).encoding = some e → e ≠ "")
    (hempty : (detect (List.nil : List Nat)).encoding = none) :
    dtm_get_file_content true decode detect (some bytes) =
      readerChainSpec decode detect bytes ∧
    (∀ c, decode "utf-8" bytes = some c →
      dtm_get_file_content true decode detect (some bytes) = some c) := by
  have hshape := dtm_encodingsToTry_cases true detect bytes
  constructor
  · cases hdu : decode "utf-8" bytes with
    | some c =>
        rcases hshape with h | h <;>
          simp [dtm_get_file_content, h, firstDecode, hdu, readerChainSpec]
    | none =>
        by_cases hbe : bytes = []
        · subst hbe
          have hdet : dtm_detect_encoding true detect [] = "utf-8" := by
            simp [dtm_detect_encoding]
          rw [hdet] at hshape
          rcases hshape with h | h <;>
            simp [dtm_get_file_content, h, firstDecode, hdu, readerChainSpec, option_match_self, hempty]
        · have htk : bytes.take 5000 ≠ [] := by
            simp [List.take_eq_nil_iff, hbe]
          cases hrenc : (detect (bytes.take 5000)).encoding with
            | none =>
                have hdet : dtm_detect_encoding true detect bytes = "utf-8" := by
                  simp [dtm_detect_encoding, htk, hrenc]
                rw [hdet] at hshape
                rcases hshape with h | h <;>
                  simp [dtm_get_file_content, h, firstDecode, hdu, readerChainSpec, option_match_self, hrenc]
            | some e =>
                have hne : e ≠ "" := hname e hrenc
                by_cases hconf : (detect (bytes.take 5000)).confidence > 7 / 10
                · have hdet : dtm_detect_encoding true detect bytes = e := by
                    simp [dtm_detect_encoding, htk, hrenc, hne, hconf]
                  rw [hdet] at hshape
                  by_cases he1 : e = "utf-8"
                  · rcases hshape with h | h <;>
                      simp [dtm_get_file_content, h, firstDecode, hdu, readerChainSpec, option_match_self,
                        hrenc, hconf, he1]
                  · by_cases he2 : e = "latin-1"
                    · rcases hshape with h | h <;>
                        · subst he2
                          cases hdl : decode "latin-1" bytes <;>
                            simp [dtm_get_file_content, h, firstDecode, hdu,
                              readerChainSpec, option_match_self, hrenc, hconf, hdl]
                    · have h1s : ¬ ("utf-8" = e) := fun hh => he1 hh.symm
                      have h2s : ¬ ("latin-1" = e) := fun hh => he2 hh.symm
                      have hchain : dtm_encodingsToTry true detect bytes =
                          ["utf-8", e, "latin-1"] := by
                        simp [dtm_encodingsToTry, hdet, he1, he2, h1s, h2s]
                      cases hde : decode e bytes <;>
                        simp [dtm_get_file_content, hchain, firstDecode, hdu, readerChainSpec,
                          option_match_self, hrenc, hconf, hde]
                · have hdet : dtm_detect_encoding true detect bytes = "utf-8" := by
                    simp [dtm_detect_encoding, htk, hrenc, hconf]
                  rw [hdet] at hshape
                  rcases hshape with h | h <;>
                    simp [dtm_get_file_content, h, firstDecode, hdu, readerChainSpec, option_match_self,
                      hrenc, hconf]
  · intro c hc
    rcases hshape with h | h <;>
      simp [dtm_get_file_content, h, firstDecode, hc]

/-- Witness for C3: at a concrete oracle (UTF-8 fails, detector reports
nothing) the Reader equals the spec chain, which ends at latin-1. -/
theorem c3_dtm_reader_follows_spec_chain_witness :
    dtm_get_file_content true wDecode wDetect (some [255]) =
      readerChainSpec wDecode wDetect [255] :=
  (c3_dtm_reader_follows_spec_chain wDecode wDetect [255]
    (fun e h => by simp [wDetect] at h) (by simp [wDetect])).1

/-- C3 counterexample: tollm.py's Reader (one of the claim's two cited
implementations) accepts a detected encoding of confidence 0.1, below the
0.7 threshold the claim requires, and so decodes with cp1252 where the
claimed chain would fall back to Latin-1. -/
theorem c3_counterexample_tollm_no_threshold :
    tollm_get_file_content cDecode cDetect (some [255]) = some "windows text" ∧
    readerChainSpec cDecode cDetect [255] = some "latin text" ∧
    ¬ ("windows text" = "latin text") := by
  refine ⟨by rfl, ?_, by decide⟩
  have hc : ¬ ((7 : ℚ) / 10 < 1 / 10) := by norm_num
  simp only [readerChainSpec, option_match_self, cDecode, cDetect, gt_iff_lt, if_neg hc]
  decide

/-- C6: with a total Latin-1 decoder (every byte value is a Latin-1 code
point) both scripts' Readers succeed on every byte input — the
"undecodable after exhausting the chain" branch is unreachable — and they
return None exactly when an I/O error occurs (`none` input). -/
theorem c6_reader_never_fails_on_decoding
    (decode : String → List Nat → Option String) (detect : List Nat → DetectResult)
    (avail : Bool)
    (hlatin : ∀ b, (decode "latin-1" b).isSome) :
    (∀ bytes, (dtm_get_file_content avail decode detect (some bytes)).isSome ∧
      (tollm_get_file_content decode detect (some bytes)).isSome) ∧
    dtm_get_file_content avail decode detect none = none ∧
    tollm_get_file_content decode detect none = none := by
  refine ⟨fun bytes => ⟨?_, ?_⟩, rfl, rfl⟩
  · have hmem : "latin-1" ∈ dtm_encodingsToTry avail detect bytes := by
      rcases dtm_encodingsToTry_cases avail detect bytes with h | h <;> simp [h]
    exact firstDecode_isSome_of_mem decode bytes _ _ hmem (hlatin bytes)
  · cases h1 : decode "utf-8" bytes with
    | some c => simp [tollm_get_file_content, h1]
    | none =>
        cases h2 : decode (tollm_detect_encoding detect bytes) bytes with
        | some c => simp [tollm_get_file_content, h1, h2]
        | none => simp [tollm_get_file_content, h1, h2, hlatin bytes]

/-- Witness for C6: both Readers succeed on a concrete byte with the
latin-1-only decoder. -/
theorem c6_reader_never_fails_on_decoding_witness :
    (dtm_get_file_content true wDecode wDetect (some [0])).isSome ∧
    (tollm_get_file_content wDecode wDetect (some [0])).isSome :=
  (c6_reader_never_fails_on_decoding wDecode wDetect true
    (fun b => by simp [wDecode])).1 [0]

/-- Helper: every member of `INCLUDED_EXTENSIONS`, taken as a filename, has
an empty splitext extension and is a key of `LANGUAGE_MAP`. -/
theorem included_ext_empty_and_mapped :
    ∀ f ∈ INCLUDED_EXTENSIONS, extLower f = "" ∧ (LANGUAGE_MAP.lookup f).isSome = true := by
  decide

/-- Helper: every key of `LANGUAGE_MAP` is a member of
`INCLUDED_EXTENSIONS`. -/
theorem map_keys_included : ∀ p ∈ LANGUAGE_MAP, p.1 ∈ INCLUDED_EXTENSIONS := by
  decide

/-- Helper: a lookup for a string that is no key returns none. -/
theorem lookup_none_of_not_key (a : String) :
    ∀ (m : List (String × String)), (∀ p ∈ m, p.1 ≠ a) → m.lookup a = none := by
  intro m
  induction m with
  | nil => intro _; rfl
  | cons p t ih =>
      intro h
      obtain ⟨k, v⟩ := p
      have hk : ¬ (a == k) = true := by
        simp only [beq_iff_eq]
        exact fun hh => h (k, v) (List.mem_cons_self ..) hh.symm
      simp only [List.lookup, hk, Bool.false_eq_true, if_false, cond_false]
      exact ih fun q hq => h q (List.mem_cons_of_mem _ hq)

/-- Helper: for every filename the filter lets through, both scripts'
language lookups agree with the spec's name-first, extension-second,
empty-default lookup. -/
theorem language_eq_spec (filename : String)
    (hpass : dtm_fileIncludable filename = true) :
    dtm_language filename = spec_language filename ∧
    tollm_language filename = spec_language filename := by
  by_cases hname : INCLUDED_EXTENSIONS.contains filename = true
  · have hmem : filename ∈ INCLUDED_EXTENSIONS := (mem_iff_contains ..).mpr hname
    obtain ⟨hext, hsome⟩ := included_ext_empty_and_mapped filename hmem
    obtain ⟨l, hl⟩ := Option.isSome_iff_exists.mp hsome
    have hextnotmem : extLower filename ∉ INCLUDED_EXTENSIONS := by
      rw [hext]; decide
    constructor
    · simp [dtm_language, dtm_langKey, dtm_isIncludableName, hmem, spec_language, hl]
    · simp [tollm_language, tollm_langKey, hextnotmem, spec_language, hl]
  · have hnone : LANGUAGE_MAP.lookup filename = none := by
      apply lookup_none_of_not_key
      intro p hp hpe
      exact hname ((mem_iff_contains ..).mp (hpe ▸ map_keys_included p hp))
    have hBname : INCLUDED_EXTENSIONS.contains filename = false := by
      cases hcc : INCLUDED_EXTENSIONS.contains filename
      · rfl
      · exact absurd hcc hname
    have hextinc : INCLUDED_EXTENSIONS.contains (extLower filename) = true := by
      cases hcc : INCLUDED_EXTENSIONS.contains (extLower filename)
      · exfalso
        rw [dtm_fileIncludable, dtm_isIncludableExt, dtm_isIncludableName, hcc, hBname]
          at hpass
        simp at hpass
      · rfl
    have hextmem : extLower filename ∈ INCLUDED_EXTENSIONS := (mem_iff_contains ..).mpr hextinc
    have hnotmem : filename ∉ INCLUDED_EXTENSIONS := fun hh =>
      hname ((mem_iff_contains ..).mp hh)
    constructor
    · simp only [dtm_language, dtm_langKey, dtm_isIncludableName, spec_language, hnone]
      rw [if_neg hname]
      cases LANGUAGE_MAP.lookup (extLower filename) <;> simp
    · simp only [tollm_language, tollm_langKey, spec_language, hnone]
      rw [if_pos hextinc]
      cases LANGUAGE_MAP.lookup (extLower filename) <;> simp

/-- C7 (amended): for every filename the filter lets through, the emitted
section of directorytomarkdown.py is exactly the header line (no blank line
after it), the opening fence tagged with the name-first /
extension-fallback / empty-default language, the content, the forced
trailing newline when the content is nonempty and unterminated, and the
closing fence followed by a blank line; tollm.py's language tag agrees with
the same lookup. -/
theorem c7_section_format (path : List String) (filename content : String)
    (hpass : dtm_fileIncludable filename = true) :
    dtm_renderSection ⟨path, dtm_language filename, content⟩ =
      "--- File: " ++ String.intercalate "/" path ++ " ---\n" ++
        ("```" ++ spec_language filename ++ "\n") ++ content ++
        (if !(content == "") && !endsWithNewline content then "\n" else "") ++
        "```\n\n" ∧
    tollm_language filename = spec_language filename := by
  obtain ⟨h1, h2⟩ := language_eq_spec filename hpass
  exact ⟨by simp only [dtm_renderSection, h1], h2⟩

/-- Witness for C7: the amended shape at the file a.py with content "x". -/
theorem c7_section_format_witness :
    dtm_renderSection ⟨["a.py"], dtm_language "a.py", "x"⟩ =
      "--- File: " ++ String.intercalate "/" ["a.py"] ++ " ---\n" ++
        ("```" ++ spec_language "a.py" ++ "\n") ++ "x" ++
        (if !("x" == "") && !endsWithNewline "x" then "\n" else "") ++ "```\n\n" :=
  (c7_section_format ["a.py"] "a.py" "x" (by decide)).1

/-- C7 counterexample: the claim's section shape has a blank line between
the header line and the opening fence; the emitted section of
directorytomarkdown.py for a.py with content "x\n" has none, so the two
strings differ. -/
theorem c7_counterexample_no_blank_line :
    dtm_renderSection ⟨["a.py"], dtm_language "a.py", "x\n"⟩ =
      "--- File: a.py ---\n```python\nx\n```\n\n" ∧
    c7_claimedSection ⟨["a.py"], dtm_language "a.py", "x\n"⟩ =
      "--- File: a.py ---\n\n```python\nx\n```\n\n" ∧
    ¬ ("--- File: a.py ---\n```python\nx\n```\n\n" =
        "--- File: a.py ---\n\n```python\nx\n```\n\n") := by
  exact ⟨by decide, by decide, by decide⟩

/-- C4: for content that already ends in a newline, both scripts emit the
content between the fences byte-identically — no forced newline, nothing
added or removed. -/
theorem c4_roundtrip_newline_terminated (path : List String) (lang content : String)
    (h : endsWithNewline content = true) :
    dtm_renderSection ⟨path, lang, content⟩ =
      "--- File: " ++ String.intercalate "/" path ++ " ---\n" ++
        ("```" ++ lang ++ "\n") ++ content ++ "```\n\n" ∧
    tollm_renderSection ⟨path, lang, content⟩ =
      "--- File: " ++ String.intercalate "/" path ++ " ---\n" ++
        ("```" ++ lang ++ "\n") ++ content ++ "```\n\n" := by
  constructor <;> simp [dtm_renderSection, tollm_renderSection, h]

/-- Witness for C4: the round trip at a.txt with content "hi\n". -/
theorem c4_roundtrip_newline_terminated_witness :
    dtm_renderSection ⟨["a.txt"], "text", "hi\n"⟩ =
      "--- File: " ++ String.intercalate "/" ["a.txt"] ++ " ---\n" ++
        ("```" ++ "text" ++ "\n") ++ "hi\n" ++ "```\n\n" :=
  (c4_roundtrip_newline_terminated ["a.txt"] "text" "hi\n" (by decide)).1

/-- C5 counterexample: for empty content directorytomarkdown.py appends no
newline (the Python truthiness test `if content` fails), so the closing
fence directly follows the opening fence line, not a blank line as the
claim's "including the empty content case" requires. -/
theorem c5_counterexample_empty_content_dtm :
    dtm_renderSection ⟨["a.py"], "python", ""⟩ =
      "--- File: a.py ---\n```python\n```\n\n" ∧
    ¬ ("--- File: a.py ---\n```python\n```\n\n" =
        "--- File: a.py ---\n```python\n\n```\n\n") := by
  exact ⟨by decide, by decide⟩

/-- C5 (amended): for nonempty content not ending in a newline both scripts
append exactly one newline before the closing fence and alter nothing else;
for empty content directorytomarkdown.py appends nothing while tollm.py
still appends one newline. -/
theorem c5_newline_appended (path : List String) (lang content : String)
    (h : endsWithNewline content = false) :
    (content ≠ "" →
      dtm_renderSection ⟨path, lang, content⟩ =
        "--- File: " ++ String.intercalate "/" path ++ " ---\n" ++
          ("```" ++ lang ++ "\n") ++ content ++ "\n" ++ "```\n\n") ∧
    dtm_renderSection ⟨path, lang, ""⟩ =
      "--- File: " ++ String.intercalate "/" path ++ " ---\n" ++
        ("```" ++ lang ++ "\n") ++ "```\n\n" ∧
    tollm_renderSection ⟨path, lang, content⟩ =
      "--- File: " ++ String.intercalate "/" path ++ " ---\n" ++
        ("```" ++ lang ++ "\n") ++ content ++ "\n" ++ "```\n\n" := by
  refine ⟨fun hne => ?_, ?_, ?_⟩
  · have hb : (content == "") = false := by simpa using hne
    simp [dtm_renderSection, h, hb]
  · simp [dtm_renderSection, endsWithNewline]
  · simp [tollm_renderSection, h]

/-- Witness for C5: one newline appended at the file "a" with content "x". -/
theorem c5_newline_appended_witness :
    dtm_renderSection ⟨["a"], "", "x"⟩ =
      "--- File: " ++ String.intercalate "/" ["a"] ++ " ---\n" ++
        ("```" ++ "" ++ "\n") ++ "x" ++ "\n" ++ "```\n\n" :=
  (c5_newline_appended ["a"] "" "x" (by decide)).1 (by decide)

/-- C8: when the input path is missing or not a directory, both scripts'
process_directory reports the not-found error and returns before any
traversal; no output string is produced and the output file is never
touched. -/
theorem c8_not_found_aborts (hdr : String) :
    dtm_processDirectory hdr none = Except.error RunError.notFound ∧
    tollm_processDirectory none = Except.error RunError.notFound :=
  ⟨rfl, rfl⟩

/-- Helper: a section emitted by directorytomarkdown.py's per-file step has
path `relDir ++ [filename]`. -/
theorem dtm_processFile_path (relDir : List String) (e : FsEntry) (s : FileSection)
    (h : dtm_processFile relDir e = some s) : ∃ f, s.path = relDir ++ [f] := by
  cases e with
  | dir n lnk cs => simp [dtm_processFile] at h
  | file n lnk c =>
      simp only [dtm_processFile] at h
      split at h
      · simp at h
      · split at h
        · simp at h
        · split at h
          · simp at h
          · obtain ⟨content, hc, hfa⟩ := Option.map_eq_some'.mp h
            exact ⟨n, by rw [← hfa]⟩

/-- Helper: the same for tollm.py's per-file step. -/
theorem tollm_processFile_path (relDir : List String) (e : FsEntry) (s : FileSection)
    (h : tollm_processFile relDir e = some s) : ∃ f, s.path = relDir ++ [f] := by
  cases e with
  | dir n lnk cs => simp [tollm_processFile] at h
  | file n lnk c =>
      simp only [tollm_processFile] at h
      split at h
      · simp at h
      · split at h
        · simp at h
        · obtain ⟨content, hc, hfa⟩ := Option.map_eq_some'.mp h
          exact ⟨n, by rw [← hfa]⟩

/-- Helper: a section emitted for the files of one visited directory has
that directory's relative path as its directory part. -/
theorem dtm_filesPart_path (relDir : List String) (children : List FsEntry)
    (s : FileSection) (h : s ∈ dtm_filesPart relDir children) :
    ∃ f, s.path = relDir ++ [f] := by
  obtain ⟨e, he, hpe⟩ := List.mem_filterMap.mp h
  exact dtm_processFile_path relDir e s hpe

/-- Helper: the same for tollm.py. -/
theorem tollm_filesPart_path (relDir : List String) (children : List FsEntry)
    (s : FileSection) (h : s ∈ tollm_filesPart relDir children) :
    ∃ f, s.path = relDir ++ [f] := by
  obtain ⟨e, he, hpe⟩ := List.mem_filterMap.mp h
  exact tollm_processFile_path relDir e s hpe

/-- Helper: every section produced below the current directory by
directorytomarkdown.py's descent extends `relDir` by directory components
that are neither excluded nor hidden, then a filename. -/
theorem dtm_walkSubdirs_path_inv (relDir : List String) (children : List FsEntry) :
    ∀ s ∈ dtm_walkSubdirs relDir children,
      ∃ ds f, s.path = relDir ++ ds ++ [f] ∧
        ∀ d ∈ ds, EXCLUDED_DIRECTORIES.contains d = false ∧ startsWithDot d = false := by
  induction relDir, children using dtm_walkSubdirs.induct with
  | case1 relDir =>
      intro s hs
      simp [dtm_walkSubdirs] at hs
  | case2 relDir n cs rest ih1 ih2 =>
      intro s hs
      rw [dtm_walkSubdirs] at hs
      by_cases hcond : (!EXCLUDED_DIRECTORIES.contains n && !startsWithDot n) = true
      · rw [if_pos hcond] at hs
        have hc := hcond
        rw [Bool.and_eq_true, Bool.not_eq_true', Bool.not_eq_true'] at hc
        rcases List.mem_append.mp hs with h | h
        · rcases List.mem_append.mp h with h2 | h2
          · obtain ⟨f, hp⟩ := dtm_filesPart_path (relDir ++ [n]) cs s h2
            refine ⟨[n], f, by rw [hp], ?_⟩
            intro d hd
            rw [List.mem_singleton.mp hd]
            exact hc
          · obtain ⟨ds, f, hp, hall⟩ := ih1 s h2
            refine ⟨n :: ds, f, by rw [hp]; simp, ?_⟩
            intro d hd
            rcases List.mem_cons.mp hd with rfl | hd2
            · exact hc
            · exact hall d hd2
        · exact ih2 s h
      · rw [if_neg hcond, List.nil_append] at hs
        exact ih2 s hs
  | case3 relDir head rest hne ih =>
      intro s hs
      cases head with
      | file n lnk c =>
          rw [show dtm_walkSubdirs relDir (FsEntry.file n lnk c :: rest) =
              dtm_walkSubdirs relDir rest from by simp [dtm_walkSubdirs]] at hs
          exact ih s hs
      | dir n lnk cs =>
          cases lnk with
          | false => exact absurd rfl (hne n cs)
          | true =>
              rw [show dtm_walkSubdirs relDir (FsEntry.dir n true cs :: rest) =
                  dtm_walkSubdirs relDir rest from by simp [dtm_walkSubdirs]] at hs
              exact ih s hs

/-- Helper: every section produced below the current directory by tollm.py's
descent extends `relDir` by directory components that are not excluded
(hidden ones are allowed), then a filename. -/
theorem tollm_walkSubdirs_path_inv (relDir : List String) (children : List FsEntry) :
    ∀ s ∈ tollm_walkSubdirs relDir children,
      ∃ ds f, s.path = relDir ++ ds ++ [f] ∧
        ∀ d ∈ ds, EXCLUDED_DIRECTORIES.contains d = false := by
  induction relDir, children using tollm_walkSubdirs.induct with
  | case1 relDir =>
      intro s hs
      simp [tollm_walkSubdirs] at hs
  | case2 relDir n cs rest ih1 ih2 =>
      intro s hs
      rw [tollm_walkSubdirs] at hs
      by_cases hcond : (!EXCLUDED_DIRECTORIES.contains n) = true
      · rw [if_pos hcond] at hs
        have hc := hcond
        rw [Bool.not_eq_true'] at hc
        rcases List.mem_append.mp hs with h | h
        · rcases List.mem_append.mp h with h2 | h2
          · obtain ⟨f, hp⟩ := tollm_filesPart_path (relDir ++ [n]) cs s h2
            refine ⟨[n], f, by rw [hp], ?_⟩
            intro d hd
            rw [List.mem_singleton.mp hd]
            exact hc
          · obtain ⟨ds, f, hp, hall⟩ := ih1 s h2
            refine ⟨n :: ds, f, by rw [hp]; simp, ?_⟩
            intro d hd
            rcases List.mem_cons.mp hd with rfl | hd2
            · exact hc
            · exact hall d hd2
        · exact ih2 s h
      · rw [if_neg hcond, List.nil_append] at hs
        exact ih2 s hs
  | case3 relDir head rest hne ih =>
      intro s hs
      cases head with
      | file n lnk c =>
          rw [show tollm_walkSubdirs relDir (FsEntry.file n lnk c :: rest) =
              tollm_walkSubdirs relDir rest from by simp [tollm_walkSubdirs]] at hs
          exact ih s hs
      | dir n lnk cs =>
          cases lnk with
          | false => exact absurd rfl (hne n cs)
          | true =>
              rw [show tollm_walkSubdirs relDir (FsEntry.dir n true cs :: rest) =
                  tollm_walkSubdirs relDir rest from by simp [tollm_walkSubdirs]] at hs
              exact ih s hs

/-- C2 (amended): in directorytomarkdown.py no emitted section lies beneath
a directory whose name is in `EXCLUDED_DIRECTORIES` or starts with the
hidden marker "." — such directories are pruned before descent; in
tollm.py only `EXCLUDED_DIRECTORIES` members are pruned, and a hidden
directory not in that set is still descended into (see the
counterexample). -/
theorem c2_pruned_directories (children : List FsEntry) (s : FileSection) :
    (s ∈ dtm_run children →
      ∀ d ∈ s.path.dropLast,
        EXCLUDED_DIRECTORIES.contains d = false ∧ startsWithDot d = false) ∧
    (s ∈ tollm_run children →
      ∀ d ∈ s.path.dropLast, EXCLUDED_DIRECTORIES.contains d = false) := by
  constructor
  · intro hs d hd
    rcases List.mem_append.mp hs with h | h
    · obtain ⟨f, hp⟩ := dtm_filesPart_path [] children s h
      rw [hp] at hd
      simp at hd
    · obtain ⟨ds, f, hp, hall⟩ := dtm_walkSubdirs_path_inv [] children s h
      rw [hp, List.nil_append, List.dropLast_concat] at hd
      exact hall d hd
  · intro hs d hd
    rcases List.mem_append.mp hs with h | h
    · obtain ⟨f, hp⟩ := tollm_filesPart_path [] children s h
      rw [hp] at hd
      simp at hd
    · obtain ⟨ds, f, hp, hall⟩ := tollm_walkSubdirs_path_inv [] children s h
      rw [hp, List.nil_append, List.dropLast_concat] at hd
      exact hall d hd

/-- Witness for C2: the section emitted for src/a.py certifies that "src"
is neither excluded nor hidden. -/
theorem c2_pruned_directories_witness :
    EXCLUDED_DIRECTORIES.contains "src" = false ∧ startsWithDot "src" = false := by
  have h1 : dtm_walkSubdirs ["src"] [FsEntry.file "a.py" false (some "x\n")] = [] := by
    simp [dtm_walkSubdirs]
  have h2 : dtm_walkSubdirs [] c2wtree =
      dtm_filesPart ["src"] [FsEntry.file "a.py" false (some "x\n")] := by
    simp +decide [c2wtree, dtm_walkSubdirs, h1]
  have h3 : dtm_run c2wtree = [⟨["src", "a.py"], "python", "x\n"⟩] := by
    rw [dtm_run, h2]
    decide
  exact (c2_pruned_directories c2wtree ⟨["src", "a.py"], "python", "x\n"⟩).1
    (by rw [h3]; exact List.mem_singleton.mpr rfl) "src" (by decide)

/-- C2 counterexample: tollm.py emits the file beneath the hidden directory
".hidden" (not a member of `EXCLUDED_DIRECTORIES`), so a directory
beginning with the hidden marker is not pruned by that script. -/
theorem c2_counterexample_tollm_hidden_dir :
    tollm_run c2tree = [⟨[".hidden", "a.py"], "python", "x\n"⟩] ∧
    startsWithDot ".hidden" = true ∧
    EXCLUDED_DIRECTORIES.contains ".hidden" = false := by
  refine ⟨?_, by decide, by decide⟩
  have h1 : tollm_walkSubdirs [".hidden"] [FsEntry.file "a.py" false (some "x\n")] = [] := by
    simp [tollm_walkSubdirs]
  have h2 : tollm_walkSubdirs [] c2tree =
      tollm_filesPart [".hidden"] [FsEntry.file "a.py" false (some "x\n")] := by
    simp +decide [c2tree, tollm_walkSubdirs, h1]
  rw [tollm_run, h2]
  decide

/-- C9 (amended): symlinked directories are never descended into by either
script (os.walk is called with followlinks=False), and
directorytomarkdown.py's per-file step skips a symlinked file; tollm.py,
however, reads symlinked files like ordinary ones (see the
counterexample). -/
theorem c9_symlinks_not_followed (relDir : List String) (n : String) (c : Option String)
    (cs rest : List FsEntry) :
    dtm_processFile relDir (FsEntry.file n true c) = none ∧
    dtm_walkSubdirs relDir (FsEntry.dir n true cs :: rest) =
      dtm_walkSubdirs relDir rest ∧
    tollm_walkSubdirs relDir (FsEntry.dir n true cs :: rest) =
      tollm_walkSubdirs relDir rest := by
  refine ⟨rfl, by simp [dtm_walkSubdirs], by simp [tollm_walkSubdirs]⟩

/-- C9 counterexample: on a root holding a single symlinked a.py, tollm.py
emits the content reached through the symlink while directorytomarkdown.py
emits nothing. -/
theorem c9_counterexample_tollm_symlink_file :
    tollm_run c9tree = [⟨["a.py"], "python", "S\n"⟩] ∧
    dtm_run c9tree = [] := by
  constructor
  · have h1 : tollm_walkSubdirs [] c9tree = [] := by simp [c9tree, tollm_walkSubdirs]
    rw [tollm_run, h1]
    decide
  · have h1 : dtm_walkSubdirs [] c9tree = [] := by simp [c9tree, dtm_walkSubdirs]
    rw [dtm_run, h1]
    decide

/-- Helper: an element of an insertion is the inserted entry or an element
of the old list. -/
theorem mem_insertFile (e : FsEntry) (l : List FsEntry) (y : FsEntry)
    (h : y ∈ insertFile e l) : y = e ∨ y ∈ l := by
  induction l with
  | nil =>
      simp only [insertFile] at h
      exact Or.inl (List.mem_singleton.mp h)
  | cons x xs ih =>
      simp only [insertFile] at h
      split at h
      · rcases List.mem_cons.mp h with rfl | h2
        · exact Or.inl rfl
        · exact Or.inr h2
      · rcases List.mem_cons.mp h with rfl | h2
        · exact Or.inr (List.mem_cons_self ..)
        · rcases ih h2 with h3 | h3
          · exact Or.inl h3
          · exact Or.inr (List.mem_cons_of_mem _ h3)

/-- Helper: insertion keeps a name-sorted list sorted. -/
theorem sorted_insertFile (e : FsEntry) (l : List FsEntry)
    (h : l.Pairwise (fun a b => a.name ≤ b.name)) :
    (insertFile e l).Pairwise (fun a b => a.name ≤ b.name) := by
  induction l with
  | nil => simp [insertFile]
  | cons x xs ih =>
      rw [List.pairwise_cons] at h
      obtain ⟨hx, hxs⟩ := h
      simp only [insertFile]
      split
      · rename_i hc
        refine List.pairwise_cons.mpr ⟨?_, List.pairwise_cons.mpr ⟨hx, hxs⟩⟩
        intro y hy
        rcases List.mem_cons.mp hy with rfl | h2
        · exact hc
        · exact le_trans hc (hx y h2)
      · rename_i hc
        refine List.pairwise_cons.mpr ⟨?_, ih hxs⟩
        intro y hy
        rcases mem_insertFile e xs y hy with rfl | h2
        · exact le_of_not_le hc
        · exact hx y h2

/-- Helper: `files.sort()` produces a name-sorted list. -/
theorem sorted_sortFiles (l : List FsEntry) :
    (sortFiles l).Pairwise (fun a b => a.name ≤ b.name) := by
  induction l with
  | nil => simp [sortFiles]
  | cons x xs ih => exact sorted_insertFile x (sortFiles xs) ih

/-- Helper: the filename is the last path component of the section the
per-file step emits. -/
theorem dtm_processFile_lastName (relDir : List String) (e : FsEntry) (s : FileSection)
    (h : dtm_processFile relDir e = some s) : s.path.getLastD "" = e.name := by
  cases e with
  | dir n lnk cs => simp [dtm_processFile] at h
  | file n lnk c =>
      simp only [dtm_processFile] at h
      split at h
      · simp at h
      · split at h
        · simp at h
        · split at h
          · simp at h
          · obtain ⟨content, hc, hfa⟩ := Option.map_eq_some'.mp h
            rw [← hfa]
            exact List.getLastD_concat ..

/-- Helper: filtering a name-sorted entry list through the per-file step
yields sections sorted by their filename component. -/
theorem pairwise_filterMap_names (relDir : List String) (l : List FsEntry)
    (h : l.Pairwise (fun a b => a.name ≤ b.name)) :
    (l.filterMap (dtm_processFile relDir)).Pairwise
      (fun s t => s.path.getLastD "" ≤ t.path.getLastD "") := by
  induction l with
  | nil => simp
  | cons x xs ih =>
      rw [List.pairwise_cons] at h
      obtain ⟨hx, hxs⟩ := h
      cases hpf : dtm_processFile relDir x with
      | none => simpa only [List.filterMap_cons, hpf] using ih hxs
      | some s =>
          simp only [List.filterMap_cons, hpf]
          refine List.pairwise_cons.mpr ⟨?_, ih hxs⟩
          intro t ht
          obtain ⟨y, hy, hpy⟩ := List.mem_filterMap.mp ht
          rw [dtm_processFile_lastName relDir x s hpf,
            dtm_processFile_lastName relDir y t hpy]
          exact hx y hy

/-- C10: directorytomarkdown.py sorts the file list of every visited
directory before iterating, so the sections emitted for the files of one
directory are in ascending (lexicographic) filename order — the last path
component is monotone along the emitted list. -/
theorem c10_sections_sorted (relDir : List String) (children : List FsEntry) :
    (dtm_filesPart relDir children).Pairwise
      (fun s t => s.path.getLastD "" ≤ t.path.getLastD "") := by
  unfold dtm_filesPart
  exact pairwise_filterMap_names relDir _
    (sorted_sortFiles (children.filter (fun e => !e.isDirE)))
